import Mathlib

/-!
Verification development for the zero-knowledge password manager.

The development shallowly embeds the TypeScript sources:
  packages/crypto-engine/src/argon2 (deriveKey), aes.ts (encrypt/decrypt),
  vault.ts (decryptVault, handleRegisterUser), and the backend services
  (authService, syncService) together with the express routes
  (authRoutes.ts, syncRoutes.ts).

Strings that take part in cryptographic computations are modelled as their
UTF-8 byte sequences, of type List Nat with every entry below 256.
Platform primitives that are not part of the repository (Argon2id from
noble-hashes, the WebCrypto AES-256-GCM block cipher and tag, the random
source) are modelled as explicit parameters; everything the repository
itself computes (SHA-256 and HMAC via node crypto createHash/createHmac
semantics, hex encoding, base64, request handling, database state) is
implemented concretely.
-/

/-- UTF-8 bytes of an ASCII string literal (all repository constants are ASCII). -/
def asciiBytes (s : String) : List Nat := s.data.map Char.toNat

/-- A stream of random bytes: models crypto.getRandomValues / crypto.randomBytes.
The platform delivers n uniformly random bytes; the embedding receives the
source of randomness as a function and truncates each sample to a byte. -/
def randomBytes (n : Nat) (stream : Nat → Nat) : List Nat :=
  (List.range n).map (fun i => stream i % 256)

theorem randomBytes_length (n : Nat) (stream : Nat → Nat) :
    (randomBytes n stream).length = n := by
  simp [randomBytes]

theorem randomBytes_lt (n : Nat) (stream : Nat → Nat) :
    ∀ b ∈ randomBytes n stream, b < 256 := by
  intro b hb
  simp only [randomBytes, List.mem_map] at hb
  obtain ⟨i, _, rfl⟩ := hb
  exact Nat.mod_lt _ (by decide)

/-- One lowercase hexadecimal digit, as its ASCII code (models Number.toString(16)
digits and node hex encoding, which are lowercase). -/
def hexDigit (n : Nat) : Nat := if n < 10 then 48 + n else 87 + n

/-- Hex encoding of one byte, as the two ASCII codes produced by
b.toString(16).padStart(2, "0") for 0 <= b < 256 (the only values the sources
feed it, coming from Uint8Array / Buffer entries). -/
def byteToHex (b : Nat) : List Nat :=
  if b < 16 then [48, hexDigit b] else [hexDigit (b / 16), hexDigit (b % 16)]

/-- Hex encoding of a byte string: models Buffer.digest("hex") and the
Array.from(bytes).map(toString(16).padStart(2,"0")).join("") idiom. -/
def hexBytes (l : List Nat) : List Nat := l.flatMap byteToHex

theorem byteToHex_length (b : Nat) : (byteToHex b).length = 2 := by
  unfold byteToHex
  split <;> simp

theorem hexBytes_length (l : List Nat) : (hexBytes l).length = 2 * l.length := by
  induction l with
  | nil => simp [hexBytes]
  | cons a t ih =>
      simp only [hexBytes, List.flatMap_cons, List.length_append] at *
      rw [ih, byteToHex_length]
      simp [List.length_cons]
      ring

/-! ## SHA-256 (FIPS 180-4), executable over Nat with explicit mod 2^32 -/

def w32 (n : Nat) : Nat := n % 4294967296

def rotr32 (n x : Nat) : Nat := w32 ((x >>> n) ||| (x <<< (32 - n)))

def chWord (x y z : Nat) : Nat := (x &&& y) ^^^ ((x ^^^ 4294967295) &&& z)

def majWord (x y z : Nat) : Nat := (x &&& y) ^^^ (x &&& z) ^^^ (y &&& z)

def bsig0 (x : Nat) : Nat := rotr32 2 x ^^^ rotr32 13 x ^^^ rotr32 22 x

def bsig1 (x : Nat) : Nat := rotr32 6 x ^^^ rotr32 11 x ^^^ rotr32 25 x

def ssig0 (x : Nat) : Nat := rotr32 7 x ^^^ rotr32 18 x ^^^ (x >>> 3)

def ssig1 (x : Nat) : Nat := rotr32 17 x ^^^ rotr32 19 x ^^^ (x >>> 10)

def sha256K : List Nat :=
  [1116352408, 1899447441, 3049323471, 3921009573, 961987163, 1508970993, 2453635748, 2870763221,
   3624381080, 310598401, 607225278, 1426881987, 1925078388, 2162078206, 2614888103, 3248222580,
   3835390401, 4022224774, 264347078, 604807628, 770255983, 1249150122, 1555081692, 1996064986,
   2554220882, 2821834349, 2952996808, 3210313671, 3336571891, 3584528711, 113926993, 338241895,
   666307205, 773529912, 1294757372, 1396182291, 1695183700, 1986661051, 2177026350, 2456956037,
   2730485921, 2820302411, 3259730800, 3345764771, 3516065817, 3600352804, 4094571909, 275423344,
   430227734, 506948616, 659060556, 883997877, 958139571, 1322822218, 1537002063, 1747873779,
   1955562222, 2024104815, 2227730452, 2361852424, 2428436474, 2756734187, 3204031479, 3329325298]

def sha256H0 : List Nat :=
  [1779033703, 3144134277, 1013904242, 2773480762, 1359893119, 2600822924, 528734635, 1541459225]

/-- Big-endian 32-bit word from four bytes, consuming the list four at a time. -/
def bytesToWords : List Nat → List Nat
  | a :: b :: c :: d :: rest => (((a * 256 + b) * 256 + c) * 256 + d) :: bytesToWords rest
  | _ => []

/-- Extend the message schedule by one word (t = current length). -/
def scheduleStep (acc : List Nat) : List Nat :=
  let t := acc.length
  acc ++ [w32 (ssig1 (acc.getD (t - 2) 0) + acc.getD (t - 7) 0 +
               ssig0 (acc.getD (t - 15) 0) + acc.getD (t - 16) 0)]

def messageSchedule (block : List Nat) : List Nat :=
  (List.range 48).foldl (fun acc _ => scheduleStep acc) block

/-- One round of the SHA-256 compression function; the state is the list
[a, b, c, d, e, f, g, h]. -/
def compressStep (st : List Nat) (kw : Nat × Nat) : List Nat :=
  match st with
  | [a, b, c, d, e, f, g, h] =>
      let t1 := w32 (h + bsig1 e + chWord e f g + kw.1 + kw.2)
      let t2 := w32 (bsig0 a + majWord a b c)
      [w32 (t1 + t2), a, b, c, w32 (d + t1), e, f, g]
  | other => other

def processBlock (h block : List Nat) : List Nat :=
  let ws := messageSchedule block
  let st := (sha256K.zip ws).foldl compressStep h
  List.zipWith (fun x y => w32 (x + y)) h st

def be32 (w : Nat) : List Nat := [(w >>> 24) % 256, (w >>> 16) % 256, (w >>> 8) % 256, w % 256]

def be64 (n : Nat) : List Nat :=
  [(n >>> 56) % 256, (n >>> 48) % 256, (n >>> 40) % 256, (n >>> 32) % 256,
   (n >>> 24) % 256, (n >>> 16) % 256, (n >>> 8) % 256, n % 256]

/-- FIPS 180-4 padding: a 128 byte, zeros to 56 mod 64, then the bit length. -/
def sha256Pad (msg : List Nat) : List Nat :=
  msg ++ 128 :: (List.replicate ((64 + 55 - msg.length % 64) % 64) 0 ++ be64 (8 * msg.length))

def sha256Chunks (h ws : List Nat) : Nat → List Nat
  | 0 => h
  | n + 1 => sha256Chunks (processBlock h (ws.take 16)) (ws.drop 16) n

def sha256 (msg : List Nat) : List Nat :=
  let ws := bytesToWords (sha256Pad msg)
  let h := sha256Chunks sha256H0 ws (ws.length / 16)
  be32 (h.getD 0 0) ++ be32 (h.getD 1 0) ++ be32 (h.getD 2 0) ++ be32 (h.getD 3 0) ++
  be32 (h.getD 4 0) ++ be32 (h.getD 5 0) ++ be32 (h.getD 6 0) ++ be32 (h.getD 7 0)

theorem be32_length (w : Nat) : (be32 w).length = 4 := rfl

theorem sha256_length (msg : List Nat) : (sha256 msg).length = 32 := by
  simp [sha256, be32]

theorem be32_lt (w : Nat) : ∀ b ∈ be32 w, b < 256 := by
  intro b hb
  simp only [be32, List.mem_cons, List.not_mem_nil, or_false] at hb
  rcases hb with rfl | rfl | rfl | rfl <;> exact Nat.mod_lt _ (by decide)

theorem sha256_lt (msg : List Nat) : ∀ b ∈ sha256 msg, b < 256 := by
  intro b hb
  simp only [sha256, List.mem_append] at hb
  rcases hb with ((((((h | h) | h) | h) | h) | h) | h) | h <;> exact be32_lt _ _ h

/-- FIPS 180-4 test vector: SHA-256 of the empty message. -/
theorem sha256_empty_vector :
    sha256 [] = [227, 176, 196, 66, 152, 252, 28, 20, 154, 251, 244, 200,
                 153, 111, 185, 36, 39, 174, 65, 228, 100, 155, 147, 76,
                 164, 149, 153, 27, 120, 82, 184, 85] := by decide

/-- FIPS 180-4 test vector: SHA-256 of "abc". -/
theorem sha256_abc_vector :
    sha256 (asciiBytes "abc") =
      [186, 120, 22, 191, 143, 1, 207, 234, 65, 65, 64, 222,
       93, 174, 34, 35, 176, 3, 97, 163, 150, 23, 122, 156,
       180, 16, 255, 97, 242, 0, 21, 173] := by decide

/-! ## HMAC-SHA256 (RFC 2104), as computed by WebCrypto HMAC sign and node createHmac -/

/-- HMAC-SHA256 with 64-byte block size: keys longer than a block are hashed,
shorter keys are zero-padded. -/
def hmacSha256 (key msg : List Nat) : List Nat :=
  let key1 := if 64 < key.length then sha256 key else key
  let keyPad := key1 ++ List.replicate (64 - key1.length) 0
  let ipad := keyPad.map (fun b => b ^^^ 54)
  let opad := keyPad.map (fun b => b ^^^ 92)
  sha256 (opad ++ sha256 (ipad ++ msg))

set_option maxRecDepth 40000 in
/-- RFC 4231 test case 1: HMAC-SHA256 with key 11 * 20 and data "Hi There". -/
theorem hmacSha256_rfc4231_vector :
    hmacSha256 (List.replicate 20 11) (asciiBytes "Hi There") =
      [176, 52, 76, 97, 216, 219, 56, 83, 92, 168, 175, 206,
       175, 11, 241, 43, 136, 29, 194, 0, 201, 131, 61, 167,
       38, 233, 55, 108, 46, 50, 207, 247] := by decide

/-! ## Base64 (RFC 4648), as implemented by bufferToBase64 / base64ToBuffer in
packages/crypto-engine/src/aes.ts on top of btoa / atob -/

def b64alphabet : List Nat :=
  asciiBytes "ABCDEFGHIJKLMNOPQRSTUVWXYZabcdefghijklmnopqrstuvwxyz0123456789+/"

def sextetChar (n : Nat) : Nat := b64alphabet.getD n 65

def sextetVal (c : Nat) : Option Nat := b64alphabet.findIdx? (fun x => x == c)

/-- Base64 encoding of a byte string, with "=" (code 61) padding, exactly as
btoa produces from the binary string built by bufferToBase64. -/
def b64encode : List Nat → List Nat
  | [] => []
  | [a] => [sextetChar (a / 4), sextetChar (a % 4 * 16), 61, 61]
  | [a, b] => [sextetChar (a / 4), sextetChar (a % 4 * 16 + b / 16), sextetChar (b % 16 * 4), 61]
  | a :: b :: c :: rest =>
      sextetChar (a / 4) :: sextetChar (a % 4 * 16 + b / 16) ::
      sextetChar (b % 16 * 4 + c / 64) :: sextetChar (c % 64) :: b64encode rest

/-- Base64 decoding; returns none exactly when atob would throw (a character
outside the alphabet, or a length that is not a full quad sequence). -/
def b64decode : List Nat → Option (List Nat)
  | [] => some []
  | c1 :: c2 :: c3 :: c4 :: rest =>
      if c4 = 61 ∧ rest = [] then
        if c3 = 61 then do
          let s1 ← sextetVal c1
          let s2 ← sextetVal c2
          some [s1 * 4 + s2 / 16]
        else do
          let s1 ← sextetVal c1
          let s2 ← sextetVal c2
          let s3 ← sextetVal c3
          some [s1 * 4 + s2 / 16, s2 % 16 * 16 + s3 / 4]
      else do
        let s1 ← sextetVal c1
        let s2 ← sextetVal c2
        let s3 ← sextetVal c3
        let s4 ← sextetVal c4
        let tail ← b64decode rest
        some ((s1 * 4 + s2 / 16) :: (s2 % 16 * 16 + s3 / 4) :: (s3 % 4 * 64 + s4) :: tail)
  | _ => none

set_option maxRecDepth 8192 in
theorem sextetVal_sextetChar : ∀ s < 64, sextetVal (sextetChar s) = some s := by decide

theorem sextetChar_ne_61 (n : Nat) : sextetChar n ≠ 61 := by
  by_cases h : n < 64
  · revert h
    revert n
    decide
  · unfold sextetChar
    rw [List.getD_eq_default]
    · decide
    · simpa using Nat.le_of_not_lt h

/-- RFC 4648 sanity check. -/
theorem b64encode_vector : b64encode (asciiBytes "Man") = asciiBytes "TWFu" := by decide

/-- Decoding inverts encoding on byte strings. -/
theorem b64decode_b64encode :
    ∀ l : List Nat, (∀ b ∈ l, b < 256) → b64decode (b64encode l) = some l
  | [], _ => by decide
  | [a], h => by
      have ha : a < 256 := h a (by simp)
      have h1 : a / 4 < 64 := by omega
      have h2 : a % 4 * 16 < 64 := by omega
      show b64decode [sextetChar (a / 4), sextetChar (a % 4 * 16), 61, 61] = some [a]
      rw [b64decode]
      rw [if_pos ⟨rfl, rfl⟩, if_pos rfl, sextetVal_sextetChar _ h1, sextetVal_sextetChar _ h2]
      simp only [Option.pure_def, Option.bind_eq_bind, Option.some_bind, Option.some.injEq, List.cons.injEq, and_true]
      omega
  | [a, b], h => by
      have ha : a < 256 := h a (by simp)
      have hb : b < 256 := h b (by simp)
      have h1 : a / 4 < 64 := by omega
      have h2 : a % 4 * 16 + b / 16 < 64 := by omega
      have h3 : b % 16 * 4 < 64 := by omega
      show b64decode [sextetChar (a / 4), sextetChar (a % 4 * 16 + b / 16),
        sextetChar (b % 16 * 4), 61] = some [a, b]
      rw [b64decode]
      rw [if_pos ⟨rfl, rfl⟩, if_neg (sextetChar_ne_61 _), sextetVal_sextetChar _ h1,
        sextetVal_sextetChar _ h2, sextetVal_sextetChar _ h3]
      simp only [Option.pure_def, Option.bind_eq_bind, Option.some_bind, Option.some.injEq, List.cons.injEq, and_true]
      refine ⟨by omega, by omega⟩
  | a :: b :: c :: rest, h => by
      have ha : a < 256 := h a (by simp)
      have hb : b < 256 := h b (by simp)
      have hc : c < 256 := h c (by simp)
      have h1 : a / 4 < 64 := by omega
      have h2 : a % 4 * 16 + b / 16 < 64 := by omega
      have h3 : b % 16 * 4 + c / 64 < 64 := by omega
      have h4 : c % 64 < 64 := by omega
      have ih := b64decode_b64encode rest (fun x hx => h x (by simp [hx]))
      have hne : ¬ (sextetChar (c % 64) = 61 ∧ b64encode rest = []) := by
        intro hcontra
        exact sextetChar_ne_61 _ hcontra.1
      show b64decode (sextetChar (a / 4) :: sextetChar (a % 4 * 16 + b / 16) ::
        sextetChar (b % 16 * 4 + c / 64) :: sextetChar (c % 64) :: b64encode rest) =
        some (a :: b :: c :: rest)
      rw [b64decode]
      rw [if_neg hne, sextetVal_sextetChar _ h1, sextetVal_sextetChar _ h2,
        sextetVal_sextetChar _ h3, sextetVal_sextetChar _ h4, ih]
      simp only [Option.pure_def, Option.bind_eq_bind, Option.some_bind, Option.some.injEq, List.cons.injEq, and_true]
      refine ⟨by omega, by omega, by omega⟩

/-! ## Key Derivation Unit: deriveKey from packages/crypto-engine/src/argon2
(noble-hashes argon2id is an external library; the embedding receives it as a
function of (password, salt, parameters)) -/

/-- Parameters handed to the noble argon2id call: t = iterations, m = memory
size in KiB, p = parallelism. -/
structure Argon2Params where
  t : Nat
  m : Nat
  p : Nat
deriving DecidableEq

/-- The external argon2id primitive: password bytes, salt bytes, parameters to
derived key material. -/
def ArgonFn : Type := List Nat → List Nat → Argon2Params → List Nat

/-- Caller-supplied Argon2idOptions (all fields optional; merged over the
defaults with object spread). -/
structure Argon2idOptions where
  iterations : Option Nat
  parallelism : Option Nat
  memorySize : Option Nat
  hashLength : Option Nat
deriving DecidableEq

/-- DEFAULT_OPTIONS from argon2: iterations 3, parallelism 4,
memorySize 2^16 KiB (64 MiB), hashLength 32. -/
structure MergedOptions where
  iterations : Nat
  parallelism : Nat
  memorySize : Nat
  hashLength : Nat
deriving DecidableEq

def mergeOptions (options : Option Argon2idOptions) : MergedOptions :=
  { iterations := (options.bind (·.iterations)).getD 3
    parallelism := (options.bind (·.parallelism)).getD 4
    memorySize := (options.bind (·.memorySize)).getD 65536
    hashLength := (options.bind (·.hashLength)).getD 32 }

inductive KeyAlg
  | aesGcm
  | hmacSha256
deriving DecidableEq

/-- A WebCrypto CryptoKey handle as produced by crypto.subtle.importKey:
the algorithm scope, the imported raw bytes, and the extractable flag. -/
structure CryptoKey where
  alg : KeyAlg
  keyBytes : List Nat
  extractable : Bool
deriving DecidableEq

/-- The DerivedKey record returned by deriveKey (the key field is the
legacy alias for encryptionKey kept by the source). -/
structure DerivedKey where
  encryptionKey : CryptoKey
  authKey : CryptoKey
  salt : List Nat
  key : CryptoKey
deriving DecidableEq

/-- deriveKey(masterPassword, salt?, options?): merge options over defaults,
generate a random 16-byte salt when none is given, run argon2id with
(t = iterations, m = memorySize, p = parallelism), and import the first
hashLength bytes of the key material twice: once for AES-GCM and once for
HMAC-SHA256, both non-extractable. -/
def deriveKey (argon : ArgonFn) (password : List Nat) (saltOpt : Option (List Nat))
    (stream : Nat → Nat) (options : Option Argon2idOptions) : DerivedKey :=
  let merged := mergeOptions options
  let salt := saltOpt.getD (randomBytes 16 stream)
  let keyMaterial := argon password salt ⟨merged.iterations, merged.memorySize, merged.parallelism⟩
  let encryptionKey : CryptoKey := ⟨KeyAlg.aesGcm, keyMaterial.take merged.hashLength, false⟩
  let authKey : CryptoKey := ⟨KeyAlg.hmacSha256, keyMaterial.take merged.hashLength, false⟩
  { encryptionKey := encryptionKey, authKey := authKey, salt := salt, key := encryptionKey }

/-! ## Authenticated Encryption Unit: encrypt / decrypt from
packages/crypto-engine/src/aes.ts.

The WebCrypto AES-256-GCM primitive is a platform black box; it is modelled by
its standard structure: the ciphertext body is the plaintext XOR a keystream
that is a deterministic function of (key, IV) — counter-mode blocks of the
underlying AES-256 block permutation starting at counter 2 — followed by a
16-byte authentication tag that is a deterministic function of
(key, IV, ciphertext body). Decryption recomputes the tag, rejects on
mismatch, and XORs with the same keystream. The block permutation and the tag
function are parameters of the model. -/

structure SubtleAes where
  block : List Nat → List Nat → List Nat
  tagFn : List Nat → List Nat → List Nat → List Nat
  tagFn_length : ∀ k iv c, (tagFn k iv c).length = 16
  tagFn_lt : ∀ k iv c, ∀ b ∈ tagFn k iv c, b < 256

/-- CTR keystream: byte i comes from the AES block at counter 2 + i / 16. -/
def gcmKeystream (S : SubtleAes) (key iv : List Nat) (n : Nat) : List Nat :=
  (List.range n).map (fun i => (S.block key (iv ++ be32 (2 + i / 16))).getD (i % 16) 0 % 256)

theorem gcmKeystream_length (S : SubtleAes) (key iv : List Nat) (n : Nat) :
    (gcmKeystream S key iv n).length = n := by
  simp [gcmKeystream]

theorem gcmKeystream_lt (S : SubtleAes) (key iv : List Nat) (n : Nat) :
    ∀ b ∈ gcmKeystream S key iv n, b < 256 := by
  intro b hb
  simp only [gcmKeystream, List.mem_map] at hb
  obtain ⟨i, _, rfl⟩ := hb
  exact Nat.mod_lt _ (by decide)

/-- crypto.subtle.encrypt with AES-GCM: ciphertext body followed by the tag. -/
def gcmEncrypt (S : SubtleAes) (key iv pt : List Nat) : List Nat :=
  let ct := List.zipWith Nat.xor pt (gcmKeystream S key iv pt.length)
  ct ++ S.tagFn key iv ct

/-- crypto.subtle.decrypt with AES-GCM: split off the 16-byte tag, verify it,
and XOR the body with the keystream; none models the OperationError throw. -/
def gcmDecrypt (S : SubtleAes) (key iv data : List Nat) : Option (List Nat) :=
  if data.length < 16 then none
  else
    let ct := data.take (data.length - 16)
    let tag := data.drop (data.length - 16)
    if tag = S.tagFn key iv ct then some (List.zipWith Nat.xor ct (gcmKeystream S key iv ct.length))
    else none

/-- The EncryptedVault envelope (aes.ts): base64-coded fields plus the two
algorithm tags. -/
structure EncryptedVault where
  ciphertext : List Nat
  iv : List Nat
  salt : List Nat
  algorithm : String
  derivationAlgorithm : String
deriving DecidableEq

/-- A vault entry (crypto-engine types): site, username, password as strings
(byte sequences) plus the optional metadata record. -/
structure VaultEntry where
  site : List Nat
  username : List Nat
  password : List Nat
  metadata : Option (List (List Nat × List Nat))
deriving DecidableEq

/-- encrypt(entry, derivedKey): random 96-bit IV, JSON-serialize the entry
(the platform serializer is the ser parameter), AES-256-GCM encrypt, base64
the ciphertext, IV and salt. -/
def encrypt (S : SubtleAes) (ser : VaultEntry → List Nat) (stream : Nat → Nat)
    (entry : VaultEntry) (derivedKey : DerivedKey) : EncryptedVault :=
  let iv := randomBytes 12 stream
  let plaintextBytes := ser entry
  let ciphertext := gcmEncrypt S derivedKey.encryptionKey.keyBytes iv plaintextBytes
  { ciphertext := b64encode ciphertext
    iv := b64encode iv
    salt := b64encode derivedKey.salt
    algorithm := "AES-256-GCM"
    derivationAlgorithm := "Argon2id" }

/-- The single message raised by the catch block inside decrypt. -/
def genericDecryptError : String :=
  "Decryption failed. This could be due to incorrect password or corrupted data."

/-- The platform error raised by atob on malformed base64; it escapes decrypt
because base64ToBuffer runs before the try block. -/
def atobError : String :=
  "InvalidCharacterError: The string to be decoded is not correctly encoded."

/-- decrypt(encrypted, derivedKey): base64-decode ciphertext and IV (outside
the try block, so an atob failure carries its own message), then inside the
try block run AES-GCM decryption and JSON-parse the plaintext (the platform
parser is the de parameter); every failure inside the try block is rethrown
as the single generic message. -/
def decrypt (S : SubtleAes) (de : List Nat → Option VaultEntry) (encrypted : EncryptedVault)
    (derivedKey : DerivedKey) : Except String VaultEntry :=
  match b64decode encrypted.ciphertext, b64decode encrypted.iv with
  | some data, some iv =>
      match gcmDecrypt S derivedKey.encryptionKey.keyBytes iv data with
      | some plaintext =>
          match de plaintext with
          | some entry => Except.ok entry
          | none => Except.error genericDecryptError
      | none => Except.error genericDecryptError
  | _, _ => Except.error atobError

/-- The tagged result type of decryptVault (crypto-engine types DecryptResult). -/
inductive DecryptResult
  | success (data : VaultEntry)
  | failure (error : String)
deriving DecidableEq

/-- decryptVault(masterPassword, encrypted) from
packages/crypto-engine/src/vault.ts: re-derive the key from the embedded salt
and attempt decryption; every thrown error is caught and returned as a tagged
failure carrying the error message. -/
def decryptVault (S : SubtleAes) (argon : ArgonFn) (de : List Nat → Option VaultEntry)
    (masterPassword : List Nat) (encrypted : EncryptedVault) (stream : Nat → Nat) :
    DecryptResult :=
  match b64decode encrypted.salt with
  | none => DecryptResult.failure atobError
  | some saltBytes =>
      let derivedKey := deriveKey argon masterPassword (some saltBytes) stream none
      match decrypt S de encrypted derivedKey with
      | Except.ok entry => DecryptResult.success entry
      | Except.error msg => DecryptResult.failure msg

/-! ## Registration (handleRegisterUser in the extension background script,
packages/crypto-engine/src/vault.ts): generate a 16-byte salt, derive keys,
sign the fixed message "auth-proof" with the HMAC authentication key, hex the
result, and send email, hex salt and verifier. -/

/-- The register request body sent to POST /auth/register. -/
structure RegisterRequestBody where
  email : List Nat
  salt : List Nat
  verifier : List Nat
deriving DecidableEq

/-- crypto.subtle.sign("HMAC", key, data) for an HMAC-SHA256 key handle. -/
def subtleSign (key : CryptoKey) (data : List Nat) : List Nat :=
  hmacSha256 key.keyBytes data

/-- The registration request computed by handleRegisterUser. -/
def handleRegisterUser (argon : ArgonFn) (masterPassword email : List Nat)
    (stream : Nat → Nat) : RegisterRequestBody :=
  let salt := randomBytes 16 stream
  let derivedKey := deriveKey argon masterPassword (some salt) stream none
  let proofBuffer := subtleSign derivedKey.authKey (asciiBytes "auth-proof")
  let verifier := hexBytes proofBuffer
  let saltHex := hexBytes salt
  { email := email, salt := saltHex, verifier := verifier }

theorem xor_byte_lt {a b : Nat} (ha : a < 256) (hb : b < 256) : a ^^^ b < 256 := by
  have h : Nat.bitwise bne a b < 2 ^ 8 :=
    @Nat.bitwise_lt bne a b 8 (by norm_num at ha ⊢; omega) (by norm_num at hb ⊢; omega)
  have hx : a ^^^ b = Nat.bitwise bne a b := rfl
  rw [hx]
  omega

theorem zipWith_xor_lt (pt ks : List Nat) (hpt : ∀ b ∈ pt, b < 256) (hks : ∀ b ∈ ks, b < 256) :
    ∀ b ∈ List.zipWith Nat.xor pt ks, b < 256 := by
  intro b hb
  rw [List.mem_iff_getElem] at hb
  obtain ⟨i, hi, rfl⟩ := hb
  rw [List.getElem_zipWith]
  simp only [List.length_zipWith, lt_min_iff] at hi
  exact xor_byte_lt (hpt _ (pt.getElem_mem hi.1)) (hks _ (ks.getElem_mem hi.2))

theorem zipWith_xor_cancel :
    ∀ pt ks : List Nat, List.zipWith Nat.xor (List.zipWith Nat.xor pt ks) ks = pt.take ks.length
  | _, [] => by simp
  | [], _ :: _ => by simp
  | a :: pt, k :: ks => by
      simp only [List.zipWith_cons_cons, List.length_cons, List.take_succ_cons,
        List.cons.injEq]
      exact ⟨Nat.xor_cancel_right k a, zipWith_xor_cancel pt ks⟩

theorem gcmDecrypt_gcmEncrypt (S : SubtleAes) (key iv pt : List Nat) :
    gcmDecrypt S key iv (gcmEncrypt S key iv pt) = some pt := by
  have hks := gcmKeystream_length S key iv pt.length
  have hct : (List.zipWith Nat.xor pt (gcmKeystream S key iv pt.length)).length = pt.length := by
    rw [List.length_zipWith, hks, min_self]
  set ct := List.zipWith Nat.xor pt (gcmKeystream S key iv pt.length) with hctdef
  have htag := S.tagFn_length key iv ct
  have hlen : (ct ++ S.tagFn key iv ct).length = pt.length + 16 := by
    rw [List.length_append, hct, htag]
  simp only [gcmEncrypt, gcmDecrypt, ← hctdef, hlen]
  rw [if_neg (by omega)]
  have hsub : pt.length + 16 - 16 = pt.length := by omega
  rw [hsub, ← hct, List.take_left, List.drop_left, if_pos rfl, hct, hctdef,
    zipWith_xor_cancel, hks, List.take_of_length_le (le_refl _)]

theorem gcmEncrypt_lt (S : SubtleAes) (key iv pt : List Nat) (hpt : ∀ b ∈ pt, b < 256) :
    ∀ b ∈ gcmEncrypt S key iv pt, b < 256 := by
  intro b hb
  simp only [gcmEncrypt, List.mem_append] at hb
  rcases hb with hb | hb
  · exact zipWith_xor_lt _ _ hpt (gcmKeystream_lt S key iv pt.length) b hb
  · exact S.tagFn_lt key iv _ b hb

/-! ## Concrete instantiations used by witnesses (stand-ins for the platform
parameters: a trivial block permutation and tag, a hash-based key derivation,
an identity-style random stream, a trivial serializer) -/

def blockZero : List Nat → List Nat → List Nat := fun _ _ => List.replicate 16 0

def tagZero : List Nat → List Nat → List Nat → List Nat := fun _ _ _ => List.replicate 16 0

def S0 : SubtleAes where
  block := blockZero
  tagFn := tagZero
  tagFn_length := by intro k iv c; simp [tagZero]
  tagFn_lt := by
    intro k iv c b hb
    simp only [tagZero, List.mem_replicate] at hb
    omega

def argon0 : ArgonFn := fun password salt _ => sha256 (password ++ salt)

def stream0 : Nat → Nat := fun i => i

def entry0 : VaultEntry :=
  ⟨asciiBytes "example.com", asciiBytes "alice", asciiBytes "hunter2", none⟩

def ser0 : VaultEntry → List Nat := fun e => e.site ++ e.username ++ e.password

def de0 : List Nat → Option VaultEntry := fun _ => some entry0

/-- Claim C2: for every vault-entry payload, password and salt, decrypting
encrypt(P, k) with the key k derived from the same password and salt returns P:
encrypt followed by decrypt under the same derived key is the identity on
vault entries. The platform JSON serializer is assumed to round-trip on the
entry and to produce bytes. -/
theorem c2_encrypt_decrypt_round_trip
    (S : SubtleAes) (argon : ArgonFn) (ser : VaultEntry → List Nat)
    (de : List Nat → Option VaultEntry) (password salt : List Nat)
    (streamIv streamKey : Nat → Nat) (entry : VaultEntry)
    (hser : ∀ b ∈ ser entry, b < 256)
    (hde : de (ser entry) = some entry) :
    decrypt S de
      (encrypt S ser streamIv entry (deriveKey argon password (some salt) streamKey none))
      (deriveKey argon password (some salt) streamKey none) = Except.ok entry := by
  simp only [encrypt, decrypt,
    b64decode_b64encode _ (gcmEncrypt_lt S _ _ _ hser),
    b64decode_b64encode _ (randomBytes_lt 12 streamIv),
    gcmDecrypt_gcmEncrypt, hde]

theorem c2_encrypt_decrypt_round_trip_witness :
    (∀ b ∈ ser0 entry0, b < 256) ∧
    decrypt S0 de0
      (encrypt S0 ser0 stream0 entry0
        (deriveKey argon0 (asciiBytes "correct horse") (some (asciiBytes "pepper")) stream0 none))
      (deriveKey argon0 (asciiBytes "correct horse") (some (asciiBytes "pepper")) stream0 none) =
      Except.ok entry0 :=
  ⟨by decide,
   c2_encrypt_decrypt_round_trip S0 argon0 ser0 de0 (asciiBytes "correct horse")
     (asciiBytes "pepper") stream0 stream0 entry0 (by decide) rfl⟩

/-- The envelope used to exhibit a decryption failure inside the try block:
valid base64 fields whose 16 data bytes are all tag, and the tag does not
match. -/
def tamperedEnvelope : EncryptedVault :=
  ⟨b64encode (List.replicate 16 1), b64encode [], b64encode [], "AES-256-GCM", "Argon2id"⟩

/-- The envelope whose ciphertext field is not base64 (four codes of the
character with code 33, which is outside the alphabet). -/
def malformedEnvelope : EncryptedVault :=
  ⟨[33, 33, 33, 33], b64encode [], b64encode [], "AES-256-GCM", "Argon2id"⟩

set_option maxRecDepth 40000 in
/-- Claim C6 counterexample: decryptVault does not carry a single error
message across all failure causes. A ciphertext field tampered into invalid
base64 fails with the atob platform message (base64ToBuffer runs outside the
try block of decrypt), while a tag failure inside the try block carries the
generic message, and the two messages differ, so the error does distinguish
the causes. -/
theorem c6_counterexample :
    decryptVault S0 argon0 de0 (asciiBytes "pw") malformedEnvelope stream0 =
      DecryptResult.failure atobError ∧
    decryptVault S0 argon0 de0 (asciiBytes "pw") tamperedEnvelope stream0 =
      DecryptResult.failure genericDecryptError ∧
    atobError ≠ genericDecryptError := by
  refine ⟨by decide, by decide, by decide⟩

/-- Claim C6 (amended): decryptVault is total — it always returns a tagged
success or failure value, never an exception — and whenever every envelope
field is well-formed base64, any decryption failure (wrong password, tampered
ciphertext bytes, truncated data) carries exactly the single generic message;
only an envelope field that is not valid base64 is instead reported with the
platform base64 error message. -/
theorem c6_decryptVault_generic_error
    (S : SubtleAes) (argon : ArgonFn) (de : List Nat → Option VaultEntry)
    (masterPassword : List Nat) (enc : EncryptedVault) (stream : Nat → Nat) :
    ((∃ d, decryptVault S argon de masterPassword enc stream = DecryptResult.success d) ∨
     (∃ m, decryptVault S argon de masterPassword enc stream = DecryptResult.failure m)) ∧
    (∀ ctb ivb sb msg,
      b64decode enc.ciphertext = some ctb →
      b64decode enc.iv = some ivb →
      b64decode enc.salt = some sb →
      decryptVault S argon de masterPassword enc stream = DecryptResult.failure msg →
      msg = genericDecryptError) := by
  constructor
  · cases h : decryptVault S argon de masterPassword enc stream with
    | success d => exact Or.inl ⟨d, rfl⟩
    | failure m => exact Or.inr ⟨m, rfl⟩
  · intro ctb ivb sb msg hct hiv hsalt hrun
    unfold decryptVault at hrun
    rw [hsalt] at hrun
    simp only [decrypt, hct, hiv] at hrun
    rcases hgcm : gcmDecrypt S (deriveKey argon masterPassword (some sb) stream
        none).encryptionKey.keyBytes ivb ctb with _ | pt
    · simp only [hgcm, DecryptResult.failure.injEq] at hrun
      exact hrun.symm
    · simp only [hgcm] at hrun
      rcases hde : de pt with _ | e
      · simp only [hde, DecryptResult.failure.injEq] at hrun
        exact hrun.symm
      · simp only [hde] at hrun
        exact absurd hrun (by simp)

set_option maxRecDepth 40000 in
theorem c6_decryptVault_generic_error_witness :
    b64decode tamperedEnvelope.ciphertext = some (List.replicate 16 1) ∧
    decryptVault S0 argon0 de0 (asciiBytes "pw") tamperedEnvelope stream0 =
      DecryptResult.failure genericDecryptError ∧
    genericDecryptError = genericDecryptError :=
  ⟨by decide, by decide,
   (c6_decryptVault_generic_error S0 argon0 de0 (asciiBytes "pw") tamperedEnvelope stream0).2
     (List.replicate 16 1) [] [] genericDecryptError (by decide) (by decide) (by decide)
     (by decide)⟩

/-- Claim C9: deriveKey without a salt draws a fresh 16-byte random salt, runs
argon2id with the default parameters t = 3 iterations, m = 65536 KiB = 64 MiB,
p = 4 lanes, takes the default 32-byte output, and imports those same 32 raw
bytes into both returned handles — the AES-GCM encryption key and the
HMAC-SHA256 authentication key — each marked non-extractable. -/
theorem c9_deriveKey_defaults (argon : ArgonFn) (password : List Nat) (stream : Nat → Nat) :
    (deriveKey argon password none stream none).salt = randomBytes 16 stream ∧
    (deriveKey argon password none stream none).salt.length = 16 ∧
    (deriveKey argon password none stream none).encryptionKey =
      ⟨KeyAlg.aesGcm, (argon password (randomBytes 16 stream) ⟨3, 65536, 4⟩).take 32, false⟩ ∧
    (deriveKey argon password none stream none).authKey =
      ⟨KeyAlg.hmacSha256, (argon password (randomBytes 16 stream) ⟨3, 65536, 4⟩).take 32, false⟩ ∧
    (deriveKey argon password none stream none).authKey.keyBytes =
      (deriveKey argon password none stream none).encryptionKey.keyBytes ∧
    65536 * 1024 = 64 * 1024 * 1024 :=
  ⟨rfl, randomBytes_length 16 stream, rfl, rfl, rfl, by norm_num⟩

/-- Claim C4 (amended): during registration the client computes the stored
verifier as the hex encoding of HMAC-SHA256 of the exact message string
"auth-proof" under the derived authentication key, and sends email, hex salt
and verifier. -/
theorem c4_register_verifier (argon : ArgonFn) (masterPassword email : List Nat)
    (stream : Nat → Nat) :
    handleRegisterUser argon masterPassword email stream =
      { email := email
        salt := hexBytes (randomBytes 16 stream)
        verifier := hexBytes (hmacSha256
          (deriveKey argon masterPassword (some (randomBytes 16 stream)) stream
            none).authKey.keyBytes
          (asciiBytes "auth-proof")) } := rfl

set_option maxRecDepth 100000 in
/-- Claim C4 counterexample: the verifier actually sent by handleRegisterUser
is not HMAC(authenticationKey, "verifier"): at a concrete password, email and
randomness, the computed request verifier differs from the hex encoding of
HMAC-SHA256 of the message "verifier" under the same derived authentication
key. -/
theorem c4_counterexample :
    (handleRegisterUser argon0 (asciiBytes "pw") (asciiBytes "user@example.com")
        stream0).verifier ≠
      hexBytes (hmacSha256
        (deriveKey argon0 (asciiBytes "pw") (some (randomBytes 16 stream0)) stream0
          none).authKey.keyBytes
        (asciiBytes "verifier")) := by decide

/-! ## Backend data model: the rows of the users, sessionTokens, vaultBlobs
and syncMetadata collections (database/schema.ts and database/models.ts agree
on these fields; bookkeeping columns not read by any endpoint are omitted) -/

structure UserRow where
  id : List Nat
  email : List Nat
  salt : List Nat
  verifier : List Nat
deriving DecidableEq

structure SessionRow where
  userId : List Nat
  token : List Nat
  expiresAt : Int
deriving DecidableEq

structure VaultRow where
  userId : List Nat
  deviceId : List Nat
  ciphertext : List Nat
  salt : List Nat
  iv : List Nat
  authTag : List Nat
  version : Int
  timestamp : Int
  nonce : List Nat
deriving DecidableEq

structure MetaRow where
  userId : List Nat
  deviceId : List Nat
  lastUpdated : Int
  vaultVersion : Int
  nonce : List Nat
deriving DecidableEq

structure ServerState where
  users : List UserRow
  sessions : List SessionRow
  blobs : List VaultRow
  meta : List MetaRow
deriving DecidableEq

/-! ## Session manager (services/authService.ts) -/

/-- validateSessionToken: the stored session whose token equals the presented
one and whose expiry is strictly after now (SELECT ... WHERE token = ? AND
expiresAt > ?); returns the owning userId. -/
def validateSessionToken (sessions : List SessionRow) (token : List Nat) (now : Int) :
    Option (List Nat) :=
  (sessions.find? (fun s => decide (s.token = token ∧ now < s.expiresAt))).map (·.userId)

/-- The default expirationMinutes argument of generateSessionToken: 24 * 60. -/
def defaultExpirationMinutes : Int := 24 * 60

/-- generateSessionToken: 32 random bytes hex-encoded, stored with the
absolute expiry now + minutes * 60 * 1000. -/
def generateSessionToken (sessions : List SessionRow) (userId : List Nat)
    (expirationMinutes : Option Int) (now : Int) (stream : Nat → Nat) :
    List Nat × List SessionRow :=
  let token := hexBytes (randomBytes 32 stream)
  let expiresAt := now + expirationMinutes.getD defaultExpirationMinutes * 60 * 1000
  (token, sessions ++ [⟨userId, token, expiresAt⟩])

/-- invalidateSessionToken: DELETE FROM sessionTokens WHERE token = ?. -/
def invalidateSessionToken (sessions : List SessionRow) (token : List Nat) :
    List SessionRow :=
  sessions.filter (fun s => decide (s.token ≠ token))

/-! ## Verifier protocol (services/authService.ts): verifyClientProof and
authenticateUser -/

/-- crypto.timingSafeEqual: throws (modelled as error) when the buffers have
different lengths, otherwise constant-time equality. -/
def timingSafeEqual (a b : List Nat) : Except Unit Bool :=
  if a.length = b.length then Except.ok (decide (a = b)) else Except.error ()

/-- verifyClientProof: SHA-256 of verifier + clientChallenge, hex-encoded,
compared against the client proof with timingSafeEqual. -/
def verifyClientProof (verifier clientChallenge clientProof : List Nat) :
    Except Unit Bool :=
  let expectedProof := hexBytes (sha256 (verifier ++ clientChallenge))
  timingSafeEqual clientProof expectedProof

inductive AuthResult
  | success (user : UserRow)
  | failure (error : String)
deriving DecidableEq

/-- authenticateUser: look up the user by email, verify the client proof; a
throw inside verifyClientProof is caught and turned into a failure result. -/
def authenticateUser (users : List UserRow) (email clientChallenge clientProof : List Nat) :
    AuthResult :=
  match users.find? (fun u => decide (u.email = email)) with
  | none => AuthResult.failure "User not found"
  | some user =>
      match verifyClientProof user.verifier clientChallenge clientProof with
      | Except.error _ => AuthResult.failure "Authentication verification failed"
      | Except.ok false => AuthResult.failure "Authentication failed"
      | Except.ok true => AuthResult.success user

/-! ## Routes: request bodies, JS truthiness, responses -/

/-- JS falsiness of an optional string field: absent or empty. -/
def falsy : Option (List Nat) → Bool
  | none => true
  | some [] => true
  | some (_ :: _) => false

/-- The response observed by a client: the HTTP status plus the payload fields
used by the sync endpoints (fields not set by a branch are none). -/
structure RouteResponse where
  status : Nat
  vaultId : Option (List Nat)
  message : Option String
  vaults : Option (List VaultRow)
  lastSyncTimestamp : Option Int
  currentVersion : Option Int
deriving DecidableEq

def errorResponse (status : Nat) (message : String) : RouteResponse :=
  ⟨status, none, some message, none, none, none⟩

structure LoginBody where
  email : Option (List Nat)
  challenge : Option (List Nat)
  clientProof : Option (List Nat)
deriving DecidableEq

/-- POST /auth/login (routes/authRoutes.ts): 400 on a missing or empty field,
401 on any authentication failure, 200 with a fresh session token on success
(the 200 payload fields userId, salt and serverProof are not modelled because
no claim depends on them). -/
def loginRoute (users : List UserRow) (sessions : List SessionRow) (body : LoginBody)
    (now : Int) (stream : Nat → Nat) : RouteResponse × List SessionRow :=
  if falsy body.email || falsy body.challenge || falsy body.clientProof then
    (errorResponse 400 "email, challenge, and clientProof are required", sessions)
  else
    match authenticateUser users (body.email.getD []) (body.challenge.getD [])
        (body.clientProof.getD []) with
    | AuthResult.failure _ => (errorResponse 401 "Invalid email or password", sessions)
    | AuthResult.success user =>
        let issued := generateSessionToken sessions user.id none now stream
        (⟨200, none, none, none, none, none⟩, issued.2)

/-! ## Sync protocol (services/syncService.ts and routes/syncRoutes.ts) -/

/-- The vault payload handed to pushVault. -/
structure VaultInput where
  ciphertext : List Nat
  salt : List Nat
  iv : List Nat
  authTag : List Nat
  version : Int
  timestamp : Int
  nonce : List Nat
deriving DecidableEq

inductive PushOutcome
  | ok (vaultId : List Nat)
  | dupNonce
  | validationFailed
deriving DecidableEq

/-- Replace the first list entry satisfying p with f of it. -/
def updateFirst {α : Type} (p : α → Bool) (f : α → α) : List α → List α
  | [] => []
  | a :: rest => if p a then f a :: rest else a :: updateFirst p f rest

/-- updateSyncMetadata: findOneAndUpdate with upsert keyed on
(userId, deviceId) — update the stored row or insert a fresh one, setting
lastUpdated = now, vaultVersion and nonce. -/
def updateSyncMetadata (meta : List MetaRow) (userId deviceId : List Nat)
    (vaultVersion : Int) (nonce : List Nat) (now : Int) : List MetaRow :=
  if meta.any (fun m => decide (m.userId = userId ∧ m.deviceId = deviceId)) then
    updateFirst (fun m => decide (m.userId = userId ∧ m.deviceId = deviceId))
      (fun m => { m with lastUpdated := now, vaultVersion := vaultVersion, nonce := nonce })
      meta
  else
    meta ++ [⟨userId, deviceId, now, vaultVersion, nonce⟩]

/-- pushVault: save the blob — the save fails with a required-field validation
error when deviceId is absent or empty, and with duplicate-key error 11000
when the globally unique nonce index already holds this nonce (for any user);
on a failed save nothing is written. On success the revision is appended and
the sync metadata row is upserted. -/
def pushVault (st : ServerState) (userId : List Nat) (deviceId : Option (List Nat))
    (vault : VaultInput) (now : Int) (newId : List Nat) : PushOutcome × ServerState :=
  match deviceId with
  | none => (PushOutcome.validationFailed, st)
  | some d =>
      if d = [] then (PushOutcome.validationFailed, st)
      else if st.blobs.any (fun b => decide (b.nonce = vault.nonce)) then
        (PushOutcome.dupNonce, st)
      else
        let row : VaultRow := ⟨userId, d, vault.ciphertext, vault.salt, vault.iv,
          vault.authTag, vault.version, vault.timestamp, vault.nonce⟩
        (PushOutcome.ok newId,
         { st with
             blobs := st.blobs ++ [row]
             meta := updateSyncMetadata st.meta userId d vault.version vault.nonce now })

/-- The pull filter: revisions of userId, restricted to version strictly
greater than lastVersion when it is given. -/
def versionGtFilter (userId : List Nat) (lastVersion : Option Int) (b : VaultRow) : Bool :=
  decide (b.userId = userId) &&
    (match lastVersion with
     | none => true
     | some n => decide (n < b.version))

/-- Descending order on revisions: sort({version: -1}). -/
def byVersionDesc (a b : VaultRow) : Prop := b.version ≤ a.version

instance : DecidableRel byVersionDesc :=
  fun a b => inferInstanceAs (Decidable (b.version ≤ a.version))

instance : IsTotal VaultRow byVersionDesc :=
  ⟨fun a b => Int.le_total b.version a.version⟩

instance : IsTrans VaultRow byVersionDesc :=
  ⟨fun _ _ _ hab hbc => le_trans hbc hab⟩

/-- pullVaults: all revisions matching the filter, ordered by version
descending. -/
def pullVaults (st : ServerState) (userId : List Nat) (lastVersion : Option Int) :
    List VaultRow :=
  List.insertionSort byVersionDesc (st.blobs.filter (versionGtFilter userId lastVersion))

/-- getSyncMetadata: findOne keyed on (userId, deviceId). -/
def getSyncMetadata (st : ServerState) (userId deviceId : List Nat) : Option MetaRow :=
  st.meta.find? (fun m => decide (m.userId = userId ∧ m.deviceId = deviceId))

structure VaultBodyFields where
  ciphertext : Option (List Nat)
  salt : Option (List Nat)
  iv : Option (List Nat)
  authTag : Option (List Nat)
  version : Option Int
  timestamp : Option Int
  nonce : Option (List Nat)
deriving DecidableEq

structure PushBody where
  userId : Option (List Nat)
  deviceId : Option (List Nat)
  vault : Option VaultBodyFields
deriving DecidableEq

structure PullBody where
  userId : Option (List Nat)
  deviceId : Option (List Nat)
  lastVersion : Option Int
deriving DecidableEq

/-- The route-level vault structure validation: a 400 when any string field is
falsy or either numeric field is not a number. -/
def vaultIncomplete (v : VaultBodyFields) : Bool :=
  falsy v.ciphertext || falsy v.salt || falsy v.iv || falsy v.authTag ||
  v.version.isNone || v.timestamp.isNone || falsy v.nonce

def invalidVaultMessage : String :=
  "Vault must include ciphertext, salt, iv, authTag, version, timestamp, and nonce"

/-- POST /sync/push (routes/syncRoutes.ts): bearer-token middleware (401),
ownership check userId !== requestingUserId (403), vault structure check
(400), then pushVault, whose failure is returned as 400 and whose success as
201 with the new vaultId. -/
def pushRoute (st : ServerState) (auth : Option (List Nat)) (body : PushBody)
    (now : Int) (newId : List Nat) : RouteResponse × ServerState :=
  match auth with
  | none => (errorResponse 401 "Authorization header with Bearer token required", st)
  | some token =>
      match validateSessionToken st.sessions token now with
      | none => (errorResponse 401 "Invalid or expired token", st)
      | some requestingUserId =>
          if body.userId ≠ some requestingUserId then
            (errorResponse 403 "You can only push vaults for your own account", st)
          else
            match body.vault with
            | none => (errorResponse 400 invalidVaultMessage, st)
            | some v =>
                if vaultIncomplete v then (errorResponse 400 invalidVaultMessage, st)
                else
                  match pushVault st requestingUserId body.deviceId
                      ⟨v.ciphertext.getD [], v.salt.getD [], v.iv.getD [], v.authTag.getD [],
                       v.version.getD 0, v.timestamp.getD 0, v.nonce.getD []⟩ now newId with
                  | (PushOutcome.ok vid, st2) => (⟨201, some vid, none, none, none, none⟩, st2)
                  | (PushOutcome.dupNonce, st2) =>
                      (errorResponse 400 "Duplicate nonce - replay attack detected", st2)
                  | (PushOutcome.validationFailed, st2) =>
                      (errorResponse 400 "VaultBlob validation failed", st2)

/-- JS x || fallback on numbers: the fallback replaces a zero value. -/
def jsOr (x fallback : Int) : Int := if x = 0 then fallback else x

/-- POST /sync/pull (routes/syncRoutes.ts): same middleware and ownership
check, then pullVaults plus the sync metadata defaults
(currentVersion = metadata?.vaultVersion || 0,
lastSyncTimestamp = metadata?.lastUpdated || Date.now()). Pull writes
nothing, so only the response is returned. -/
def pullRoute (st : ServerState) (auth : Option (List Nat)) (body : PullBody)
    (now : Int) : RouteResponse :=
  match auth with
  | none => errorResponse 401 "Authorization header with Bearer token required"
  | some token =>
      match validateSessionToken st.sessions token now with
      | none => errorResponse 401 "Invalid or expired token"
      | some requestingUserId =>
          if body.userId ≠ some requestingUserId then
            errorResponse 403 "You can only pull vaults for your own account"
          else
            let vaults := pullVaults st requestingUserId body.lastVersion
            let metadata := getSyncMetadata st requestingUserId (body.deviceId.getD [])
            let currentVersion :=
              match metadata with
              | some m => jsOr m.vaultVersion 0
              | none => 0
            let lastSyncTimestamp :=
              match metadata with
              | some m => jsOr m.lastUpdated now
              | none => now
            ⟨200, none, none, some vaults, some lastSyncTimestamp, some currentVersion⟩

theorem falsy_some_of_ne {l : List Nat} (h : l ≠ []) : falsy (some l) = false := by
  cases l with
  | nil => exact absurd rfl h
  | cons a t => rfl

/-- Claim C8: session-token validation succeeds (returning the owning userId)
exactly when a stored token equals the presented value and its expiry is
strictly later than now; an expired-but-present token is invalid. Issued
tokens are 32 random bytes hex-encoded (64 hex characters) with expiry
defaulting to 1440 minutes after issuance, and invalidation deletes the
token, after which validation fails. -/
theorem c8_session_lifecycle :
    (∀ (sessions : List SessionRow) (token : List Nat) (now : Int),
      (validateSessionToken sessions token now).isSome = true ↔
        ∃ s ∈ sessions, s.token = token ∧ now < s.expiresAt) ∧
    (∀ (sessions : List SessionRow) (token u : List Nat) (now : Int),
      validateSessionToken sessions token now = some u →
        ∃ s ∈ sessions, s.token = token ∧ now < s.expiresAt ∧ s.userId = u) ∧
    (∀ (sessions : List SessionRow) (userId : List Nat) (now : Int) (stream : Nat → Nat),
      (generateSessionToken sessions userId none now stream).1.length = 64 ∧
      (generateSessionToken sessions userId none now stream).2 =
        sessions ++ [⟨userId, hexBytes (randomBytes 32 stream), now + 1440 * 60 * 1000⟩]) ∧
    (∀ (sessions : List SessionRow) (token : List Nat) (now : Int),
      validateSessionToken (invalidateSessionToken sessions token) token now = none) := by
  refine ⟨?_, ?_, ?_, ?_⟩
  · intro sessions token now
    constructor
    · intro h
      rcases hfind : sessions.find? (fun s => decide (s.token = token ∧ now < s.expiresAt))
        with _ | s
      · rw [validateSessionToken, hfind] at h
        simp at h
      · have hmem := List.mem_of_find?_eq_some hfind
        have hp := List.find?_some hfind
        rw [decide_eq_true_eq] at hp
        exact ⟨s, hmem, hp⟩
    · rintro ⟨s, hmem, h1, h2⟩
      rw [validateSessionToken]
      rcases hfind : sessions.find? (fun s => decide (s.token = token ∧ now < s.expiresAt))
        with _ | s2
      · rw [List.find?_eq_none] at hfind
        exact absurd (decide_eq_true_eq.mpr ⟨h1, h2⟩) (hfind s hmem)
      · rw [hfind]
        simp
  · intro sessions token u now h
    simp only [validateSessionToken, Option.map_eq_some'] at h
    obtain ⟨s, hfind, hu⟩ := h
    have hmem := List.mem_of_find?_eq_some hfind
    have hp := List.find?_some hfind
    simp only [decide_eq_true_eq] at hp
    exact ⟨s, hmem, hp.1, hp.2, hu⟩
  · intro sessions userId now stream
    constructor
    · show (hexBytes (randomBytes 32 stream)).length = 64
      rw [hexBytes_length, randomBytes_length]
    · show sessions ++ [⟨userId, hexBytes (randomBytes 32 stream),
        now + (none : Option Int).getD defaultExpirationMinutes * 60 * 1000⟩] = _
      norm_num [defaultExpirationMinutes, Option.getD]
  · intro sessions token now
    simp only [validateSessionToken, Option.map_eq_none', List.find?_eq_none,
      invalidateSessionToken, List.mem_filter, decide_eq_true_eq]
    rintro s ⟨_, hne⟩ hdec
    exact hne hdec.1

theorem c8_session_lifecycle_witness :
    ∃ s ∈ [({userId := [7], token := [2, 3], expiresAt := 100} : SessionRow)],
      s.token = [2, 3] ∧ (0 : Int) < s.expiresAt ∧ s.userId = [7] :=
  c8_session_lifecycle.2.1 [⟨[7], [2, 3], 100⟩] [2, 3] [7] 0 (by decide)

/-- Claim C10 counterexample: a login request whose clientProof is the empty
string has clientProof byte length 0, which differs from 64, yet the route
answers 400 (the falsy-field validation fires before authenticateUser is ever
reached), not 401 as claimed. -/
theorem c10_counterexample :
    (loginRoute [⟨[1], asciiBytes "a@b.c", asciiBytes "00", asciiBytes "aa"⟩] []
        ⟨some (asciiBytes "a@b.c"), some [1], some []⟩ 0 stream0).1.status = 400 ∧
    ([] : List Nat).length ≠ 64 := by
  refine ⟨by decide, by decide⟩

/-- Claim C10 (amended): for every login request whose fields are all present
and nonempty and whose clientProof byte length differs from 64 (the length of
the expected hex-encoded SHA-256 digest), the constant-time comparison throws,
authenticateUser catches the exception and returns a failure, and the route
answers 401 without issuing a session; no exception escapes (and a login with
an explicitly empty clientProof is instead rejected 400 by the field check,
still without a 500). -/
theorem c10_login_length_mismatch (users : List UserRow) (sessions : List SessionRow)
    (body : LoginBody) (now : Int) (stream : Nat → Nat) (e c p : List Nat)
    (he : body.email = some e) (hene : e ≠ [])
    (hc : body.challenge = some c) (hcne : c ≠ [])
    (hp : body.clientProof = some p) (hpne : p ≠ [])
    (hlen : p.length ≠ 64) :
    (loginRoute users sessions body now stream).1.status = 401 ∧
    (loginRoute users sessions body now stream).2 = sessions := by
  have hfe := falsy_some_of_ne hene
  have hfc := falsy_some_of_ne hcne
  have hfp := falsy_some_of_ne hpne
  simp only [loginRoute, he, hc, hp, hfe, hfc, hfp, Bool.or_self, Bool.false_or,
    Bool.or_false, if_neg, Option.getD_some]
  rcases hfind : users.find? (fun u => decide (u.email = e)) with _ | user
  · simp only [authenticateUser, hfind]
    exact ⟨rfl, rfl⟩
  · have hverify : verifyClientProof user.verifier c p = Except.error () := by
      unfold verifyClientProof timingSafeEqual
      rw [if_neg]
      rw [hexBytes_length, sha256_length]
      omega
    simp only [authenticateUser, hfind, hverify]
    exact ⟨rfl, rfl⟩

theorem c10_login_length_mismatch_witness :
    (loginRoute [⟨[1], asciiBytes "a@b.c", asciiBytes "00", asciiBytes "aa"⟩] []
        ⟨some (asciiBytes "a@b.c"), some [1], some [1, 2, 3]⟩ 0 stream0).1.status = 401 ∧
    (loginRoute [⟨[1], asciiBytes "a@b.c", asciiBytes "00", asciiBytes "aa"⟩] []
        ⟨some (asciiBytes "a@b.c"), some [1], some [1, 2, 3]⟩ 0 stream0).2 = [] :=
  c10_login_length_mismatch
    [⟨[1], asciiBytes "a@b.c", asciiBytes "00", asciiBytes "aa"⟩] []
    ⟨some (asciiBytes "a@b.c"), some [1], some [1, 2, 3]⟩ 0 stream0
    (asciiBytes "a@b.c") [1] [1, 2, 3]
    rfl (by decide) rfl (by decide) rfl (by decide) (by decide)

/-- Claim C3: a valid session for user A attempting push or pull with a body
userId B different from A always yields 403, regardless of the rest of the
payload: the state is unchanged and no revision is stored or returned. -/
theorem c3_cross_user_forbidden (st : ServerState) (token A B : List Nat)
    (pushBody : PushBody) (pullBody : PullBody) (now : Int) (newId : List Nat)
    (hval : validateSessionToken st.sessions token now = some A)
    (hpushB : pushBody.userId = some B) (hpullB : pullBody.userId = some B)
    (hne : B ≠ A) :
    pushRoute st (some token) pushBody now newId =
      (errorResponse 403 "You can only push vaults for your own account", st) ∧
    pullRoute st (some token) pullBody now =
      errorResponse 403 "You can only pull vaults for your own account" ∧
    (pullRoute st (some token) pullBody now).vaults = none := by
  have hne1 : pushBody.userId ≠ some A := by
    rw [hpushB]
    exact fun hco => hne (Option.some.inj hco)
  have hne2 : pullBody.userId ≠ some A := by
    rw [hpullB]
    exact fun hco => hne (Option.some.inj hco)
  have hpush : pushRoute st (some token) pushBody now newId =
      (errorResponse 403 "You can only push vaults for your own account", st) := by
    simp only [pushRoute, hval, if_pos hne1]
  have hpull : pullRoute st (some token) pullBody now =
      errorResponse 403 "You can only pull vaults for your own account" := by
    simp only [pullRoute, hval, if_pos hne2]
  refine ⟨hpush, hpull, ?_⟩
  rw [hpull]
  rfl

theorem c3_cross_user_forbidden_witness :
    pushRoute ⟨[], [⟨[1], [2], 100⟩], [], []⟩ (some [2]) ⟨some [3], some [5], none⟩ 0 [9] =
      (errorResponse 403 "You can only push vaults for your own account",
       ⟨[], [⟨[1], [2], 100⟩], [], []⟩) :=
  (c3_cross_user_forbidden ⟨[], [⟨[1], [2], 100⟩], [], []⟩ [2] [1] [3]
    ⟨some [3], some [5], none⟩ ⟨some [3], some [5], none⟩ 0 [9]
    (by decide) rfl rfl (by decide)).1

/-- Claim C5 counterexample: a push request over a valid session whose body
omits userId is answered 403, not 400 — the missing userId fails the ownership
comparison userId !== requestingUserId before any field validation runs. -/
theorem c5_counterexample :
    (pushRoute ⟨[], [⟨[1], [2], 100⟩], [], []⟩ (some [2])
        ⟨none, some [5], some ⟨some [10], some [11], some [12], some [13],
          some 1, some 5, some [14]⟩⟩ 0 [9]).1.status ≠ 400 ∧
    (pushRoute ⟨[], [⟨[1], [2], 100⟩], [], []⟩ (some [2])
        ⟨none, some [5], some ⟨some [10], some [11], some [12], some [13],
          some 1, some 5, some [14]⟩⟩ 0 [9]).1.status = 403 := by
  refine ⟨by decide, by decide⟩

/-- Claim C5 (amended): for every push request over a valid session whose body
userId matches the session, a missing deviceId or a missing vault or any
missing vault field (ciphertext, salt, iv, authTag, version, timestamp, nonce)
is answered 400; a missing userId is instead answered 403 by the ownership
check. -/
theorem c5_missing_fields (st : ServerState) (token u : List Nat) (body : PushBody)
    (now : Int) (newId : List Nat)
    (hval : validateSessionToken st.sessions token now = some u)
    (huid : body.userId = some u)
    (hmiss : body.deviceId = none ∨ body.vault = none ∨
      ∃ v, body.vault = some v ∧
        (v.ciphertext = none ∨ v.salt = none ∨ v.iv = none ∨ v.authTag = none ∨
         v.version = none ∨ v.timestamp = none ∨ v.nonce = none)) :
    (pushRoute st (some token) body now newId).1.status = 400 := by
  have huid' : ¬ body.userId ≠ some u := by simp [huid]
  rcases hmiss with hdev | hv | ⟨v, hv, hfield⟩
  · rcases hvv : body.vault with _ | v
    · simp only [pushRoute, hval, if_neg huid', hvv]
      rfl
    · simp only [pushRoute, hval, if_neg huid', hvv, pushVault, hdev]
      split
      · rfl
      · rfl
  · simp only [pushRoute, hval, if_neg huid', hv]
    rfl
  · have hinc : vaultIncomplete v = true := by
      rcases hfield with h | h | h | h | h | h | h <;> simp [vaultIncomplete, falsy, h]
    simp only [pushRoute, hval, if_neg huid', hv, hinc, if_true]
    rfl

theorem c5_missing_fields_witness :
    (pushRoute ⟨[], [⟨[1], [2], 100⟩], [], []⟩ (some [2])
        ⟨some [1], none, some ⟨some [10], some [11], some [12], some [13],
          some 1, some 5, some [14]⟩⟩ 0 [9]).1.status = 400 :=
  c5_missing_fields ⟨[], [⟨[1], [2], 100⟩], [], []⟩ [2] [1]
    ⟨some [1], none, some ⟨some [10], some [11], some [12], some [13],
      some 1, some 5, some [14]⟩⟩ 0 [9]
    (by decide) rfl (Or.inl rfl)

theorem updateFirst_exists {α : Type} (p : α → Bool) (f : α → α) :
    ∀ l : List α, (∃ a ∈ l, p a = true) →
      ∃ a ∈ l, p a = true ∧ f a ∈ updateFirst p f l
  | [], h => absurd h (by simp)
  | a :: rest, h => by
      by_cases hpa : p a = true
      · refine ⟨a, List.mem_cons_self a rest, hpa, ?_⟩
        rw [updateFirst, if_pos hpa]
        exact List.mem_cons_self _ _
      · have hrest : ∃ b ∈ rest, p b = true := by
          rcases h with ⟨b, hb, hpb⟩
          rcases List.mem_cons.mp hb with rfl | hb2
          · exact absurd hpb hpa
          · exact ⟨b, hb2, hpb⟩
        obtain ⟨b, hb, hpb, hmem⟩ := updateFirst_exists p f rest hrest
        refine ⟨b, List.mem_cons_of_mem a hb, hpb, ?_⟩
        rw [updateFirst, if_neg hpa]
        exact List.mem_cons_of_mem a hmem

theorem updateSyncMetadata_mem (meta : List MetaRow) (u d : List Nat) (ver : Int)
    (n : List Nat) (now : Int) :
    ∃ m ∈ updateSyncMetadata meta u d ver n now,
      m.userId = u ∧ m.deviceId = d ∧ m.vaultVersion = ver ∧ m.nonce = n ∧
      m.lastUpdated = now := by
  unfold updateSyncMetadata
  split
  case isTrue h =>
    obtain ⟨a, ha, hpa, hmem⟩ := updateFirst_exists
      (fun m => decide (m.userId = u ∧ m.deviceId = d))
      (fun m => { m with lastUpdated := now, vaultVersion := ver, nonce := n })
      meta (List.any_eq_true.mp h)
    rw [decide_eq_true_eq] at hpa
    exact ⟨_, hmem, hpa.1, hpa.2, rfl, rfl, rfl⟩
  case isFalse h =>
    exact ⟨⟨u, d, now, ver, n⟩, by simp, rfl, rfl, rfl, rfl, rfl⟩

/-- Claim C1: for a push request that passes authentication, the ownership
check and field validation, a nonce equal to the nonce of any stored revision
(of any user) is rejected 400 citing the duplicate nonce, with the state
unchanged — no revision appended, no sync-metadata update; a fresh nonce
appends the revision and upserts the (userId, deviceId) sync-metadata row
with the claimed version and that nonce. -/
theorem c1_push_nonce (st : ServerState) (token u : List Nat) (body : PushBody)
    (v : VaultBodyFields) (d : List Nat) (now : Int) (newId : List Nat)
    (ct salt iv tag n : List Nat) (ver ts : Int)
    (hval : validateSessionToken st.sessions token now = some u)
    (huid : body.userId = some u)
    (hdev : body.deviceId = some d) (hd : d ≠ [])
    (hv : body.vault = some v)
    (hct : v.ciphertext = some ct) (hctne : ct ≠ [])
    (hsalt : v.salt = some salt) (hsaltne : salt ≠ [])
    (hiv : v.iv = some iv) (hivne : iv ≠ [])
    (htag : v.authTag = some tag) (htagne : tag ≠ [])
    (hver : v.version = some ver) (hts : v.timestamp = some ts)
    (hn : v.nonce = some n) (hnne : n ≠ []) :
    ((∃ b ∈ st.blobs, b.nonce = n) →
      pushRoute st (some token) body now newId =
        (errorResponse 400 "Duplicate nonce - replay attack detected", st)) ∧
    ((∀ b ∈ st.blobs, b.nonce ≠ n) →
      (pushRoute st (some token) body now newId).1.status = 201 ∧
      (pushRoute st (some token) body now newId).2.blobs =
        st.blobs ++ [⟨u, d, ct, salt, iv, tag, ver, ts, n⟩] ∧
      ∃ m ∈ (pushRoute st (some token) body now newId).2.meta,
        m.userId = u ∧ m.deviceId = d ∧ m.vaultVersion = ver ∧ m.nonce = n ∧
        m.lastUpdated = now) := by
  have huid' : ¬ body.userId ≠ some u := by simp [huid]
  have hcomplete : vaultIncomplete v = false := by
    simp [vaultIncomplete, hct, hsalt, hiv, htag, hver, hts, hn,
      falsy_some_of_ne hctne, falsy_some_of_ne hsaltne, falsy_some_of_ne hivne,
      falsy_some_of_ne htagne, falsy_some_of_ne hnne]
  constructor
  · rintro ⟨b, hbmem, hbnonce⟩
    have hany : st.blobs.any (fun b => decide (b.nonce = n)) = true :=
      List.any_eq_true.mpr ⟨b, hbmem, decide_eq_true_eq.mpr hbnonce⟩
    simp only [pushRoute, hval, if_neg huid', hv, hcomplete, Bool.false_eq_true,
      if_false, pushVault, hdev, if_neg hd, hct, hsalt, hiv, htag, hver, hts, hn,
      Option.getD_some, hany, if_true]
  · intro hfresh
    have hany : st.blobs.any (fun b => decide (b.nonce = n)) = false := by
      rw [List.any_eq_false]
      intro b hb
      simp only [decide_eq_true_eq]
      exact hfresh b hb
    have hroute : pushRoute st (some token) body now newId =
        (⟨201, some newId, none, none, none, none⟩,
         { st with
             blobs := st.blobs ++ [⟨u, d, ct, salt, iv, tag, ver, ts, n⟩]
             meta := updateSyncMetadata st.meta u d ver n now }) := by
      simp only [pushRoute, hval, if_neg huid', hv, hcomplete, Bool.false_eq_true,
        if_false, pushVault, hdev, if_neg hd, hct, hsalt, hiv, htag, hver, hts, hn,
        Option.getD_some, hany, if_false]
    rw [hroute]
    exact ⟨rfl, rfl, updateSyncMetadata_mem st.meta u d ver n now⟩

theorem c1_push_nonce_witness :
    pushRoute ⟨[], [⟨[1], [2], 100⟩], [⟨[1], [5], [10], [11], [12], [13], 1, 4, [14]⟩], []⟩
        (some [2])
        ⟨some [1], some [5], some ⟨some [10], some [11], some [12], some [13],
          some 2, some 6, some [14]⟩⟩ 0 [9] =
      (errorResponse 400 "Duplicate nonce - replay attack detected",
       ⟨[], [⟨[1], [2], 100⟩], [⟨[1], [5], [10], [11], [12], [13], 1, 4, [14]⟩], []⟩) :=
  (c1_push_nonce ⟨[], [⟨[1], [2], 100⟩], [⟨[1], [5], [10], [11], [12], [13], 1, 4, [14]⟩], []⟩
    [2] [1]
    ⟨some [1], some [5], some ⟨some [10], some [11], some [12], some [13],
      some 2, some 6, some [14]⟩⟩
    ⟨some [10], some [11], some [12], some [13], some 2, some 6, some [14]⟩
    [5] 0 [9] [10] [11] [12] [13] [14] 2 6
    (by decide) rfl rfl (by decide) rfl rfl (by decide) rfl (by decide) rfl (by decide)
    rfl (by decide) rfl rfl rfl (by decide)).1
    ⟨⟨[1], [5], [10], [11], [12], [13], 1, 4, [14]⟩, by decide, rfl⟩

theorem jsOr_zero (x : Int) : jsOr x 0 = x := by
  unfold jsOr
  split
  · omega
  · rfl

theorem jsOr_of_ne {x fallback : Int} (h : x ≠ 0) : jsOr x fallback = x := by
  unfold jsOr
  rw [if_neg h]

/-- Claim C7: a pull by user U over a valid session returns status 200 with
exactly the stored revisions owned by U whose version is strictly greater
than lastVersion (all of them when lastVersion is omitted), sorted by version
in descending order, together with the (userId, deviceId) sync-metadata row's
current version and last-updated timestamp. -/
theorem c7_pull_versions (st : ServerState) (token u d : List Nat) (body : PullBody)
    (m : MetaRow) (now : Int)
    (hval : validateSessionToken st.sessions token now = some u)
    (huid : body.userId = some u)
    (hdev : body.deviceId = some d)
    (hmeta : getSyncMetadata st u d = some m)
    (hlu : m.lastUpdated ≠ 0) :
    (pullRoute st (some token) body now).status = 200 ∧
    ((pullRoute st (some token) body now).vaults.getD []).Perm
      (st.blobs.filter (versionGtFilter u body.lastVersion)) ∧
    List.Sorted byVersionDesc ((pullRoute st (some token) body now).vaults.getD []) ∧
    (body.lastVersion = none →
      ∀ b, b ∈ (pullRoute st (some token) body now).vaults.getD [] ↔
        b ∈ st.blobs ∧ b.userId = u) ∧
    (∀ n, body.lastVersion = some n →
      ∀ b, b ∈ (pullRoute st (some token) body now).vaults.getD [] ↔
        b ∈ st.blobs ∧ b.userId = u ∧ n < b.version) ∧
    (pullRoute st (some token) body now).currentVersion = some m.vaultVersion ∧
    (pullRoute st (some token) body now).lastSyncTimestamp = some m.lastUpdated := by
  have huid' : ¬ body.userId ≠ some u := by simp [huid]
  have hroute : pullRoute st (some token) body now =
      ⟨200, none, none, some (pullVaults st u body.lastVersion),
       some (jsOr m.lastUpdated now), some (jsOr m.vaultVersion 0)⟩ := by
    simp only [pullRoute, hval, if_neg huid', hdev, Option.getD_some, hmeta]
  rw [hroute]
  refine ⟨rfl, ?_, ?_, ?_, ?_, ?_, ?_⟩
  · exact List.perm_insertionSort byVersionDesc _
  · exact List.sorted_insertionSort byVersionDesc _
  · intro hnone b
    show b ∈ pullVaults st u body.lastVersion ↔ _
    rw [pullVaults, List.mem_insertionSort, List.mem_filter, hnone]
    simp [versionGtFilter]
  · intro n hsome b
    show b ∈ pullVaults st u body.lastVersion ↔ _
    rw [pullVaults, List.mem_insertionSort, List.mem_filter, hsome]
    simp [versionGtFilter, and_assoc]
  · show some (jsOr m.vaultVersion 0) = some m.vaultVersion
    rw [jsOr_zero]
  · show some (jsOr m.lastUpdated now) = some m.lastUpdated
    rw [jsOr_of_ne hlu]

theorem c7_pull_versions_witness :
    (pullRoute ⟨[], [⟨[1], [2], 100⟩],
        [⟨[1], [5], [10], [11], [12], [13], 1, 4, [14]⟩,
         ⟨[1], [5], [20], [21], [22], [23], 3, 8, [24]⟩], [⟨[1], [5], 7, 3, [24]⟩]⟩
      (some [2]) ⟨some [1], some [5], some 1⟩ 0).status = 200 ∧
    (pullRoute ⟨[], [⟨[1], [2], 100⟩],
        [⟨[1], [5], [10], [11], [12], [13], 1, 4, [14]⟩,
         ⟨[1], [5], [20], [21], [22], [23], 3, 8, [24]⟩], [⟨[1], [5], 7, 3, [24]⟩]⟩
      (some [2]) ⟨some [1], some [5], some 1⟩ 0).currentVersion = some 3 ∧
    (pullRoute ⟨[], [⟨[1], [2], 100⟩],
        [⟨[1], [5], [10], [11], [12], [13], 1, 4, [14]⟩,
         ⟨[1], [5], [20], [21], [22], [23], 3, 8, [24]⟩], [⟨[1], [5], 7, 3, [24]⟩]⟩
      (some [2]) ⟨some [1], some [5], some 1⟩ 0).lastSyncTimestamp = some 7 :=
  have h := c7_pull_versions ⟨[], [⟨[1], [2], 100⟩],
      [⟨[1], [5], [10], [11], [12], [13], 1, 4, [14]⟩,
       ⟨[1], [5], [20], [21], [22], [23], 3, 8, [24]⟩], [⟨[1], [5], 7, 3, [24]⟩]⟩
    [2] [1] [5] ⟨some [1], some [5], some 1⟩ ⟨[1], [5], 7, 3, [24]⟩ 0
    (by decide) rfl rfl (by decide) (by decide)
  ⟨h.1, h.2.2.2.2.2.1, h.2.2.2.2.2.2⟩
